import Mathlib

/-!
# Verification of the skorecard bucketing core

A shallow embedding of the bucket-mapping computation engine of the
`skorecard` repository, covering:

* `skorecard/bucketers/bucketers.py` — the fitting strategies
  (`OptimalBucketer`, `EqualWidthBucketer`, `EqualFrequencyBucketer`,
  `AgglomerativeClusteringBucketer`, `DecisionTreeBucketer`,
  `AsIsNumericalBucketer`, …);
* `skorecard/pipeline/bucketing_process.py` — the two-stage
  pre-bucketing/bucketing composition (`BucketingProcess`).

Raw cell values are modelled as `Option ℚ` (`none` is a missing value / NaN;
floats are embedded as rationals).  Fallible fit steps return `Except`.
Components of the repository that are not part of the available sources
(`base_bucketer.py` helpers, `bucket_mapping.py`, the reporting module) are
modelled from the specification; each such definition carries a doc comment
starting with `Modelled from the spec:`.
-/

namespace Skorecard

set_option maxRecDepth 40000
set_option linter.unusedVariables false

/-- A raw cell value of a feature column: `none` is a missing value (NaN). -/
abbrev Val := Option ℚ

/-- The special-value groups declared for one feature:
`(group label, raw values of the group)`, in declaration order. -/
abbrev SpecialGroups := List (String × List ℚ)

/-- `true` iff the (non-missing) value `x` is listed under some special group. -/
def isSpecialValue (special : SpecialGroups) (x : Val) : Bool :=
  match x with
  | none => false
  | some v => special.any (fun g => g.2.any (fun w => decide (w = v)))

/-- Modelled from the spec: `BaseBucketer._filter_specials_for_fit`
(`base_bucketer.py` is not among the sources).  Spec §4.2 step 2: the
feature's rows matching any declared special group's value list are removed,
and the fitting algorithm only ever sees the remaining "normal" rows. -/
def filterSpecialsForFit (xs : List Val) (special : SpecialGroups) : List Val :=
  xs.filter (fun x => !isSpecialValue special x)

/-- Modelled from the spec: `BaseBucketer._filter_na_for_fit`
(`base_bucketer.py` is not among the sources).  Spec §4.2 step 3: missing
values are removed from the normal subset before the underlying algorithm
is invoked. -/
def filterNaForFit (xs : List Val) : List Val :=
  xs.filter (fun x => x.isSome)

/-! ## BucketingProcess: coverage validation of the two stages
(`bucketing_process.py`, `BucketingProcess.fit`, lines 164-184) -/

/-- The two distinguishable coverage-error kinds raised by
`BucketingProcess.fit`: `skorecard.utils.NotPreBucketedError` and
`skorecard.utils.NotBucketedError`, each carrying the offending columns. -/
inductive CoverageError
  | notPreBucketed (columns : List String)
  | notBucketed (columns : List String)
deriving DecidableEq

/-- Columns covered by the bucketing stage but not by the prebucketing stage
(the `not_prebucketed` accumulation loop of `BucketingProcess.fit`). -/
def notPreBucketedColumns (pre bucketed : List String) : List String :=
  bucketed.filter (fun c => !pre.contains c)

/-- Columns covered by the prebucketing stage but not by the bucketing stage
(the `not_bucketed` accumulation loop of `BucketingProcess.fit`). -/
def notBucketedColumns (pre bucketed : List String) : List String :=
  pre.filter (fun c => !bucketed.contains c)

/-- The message of the `NotPreBucketedError` raised by `BucketingProcess.fit`:
joins every offending column with a comma. -/
def notPreBucketedErrMsg (cols : List String) : String :=
  "The following columns are bucketed but have not been pre-bucketed: " ++
    String.intercalate ", " cols ++ ".\n" ++
    "Consider adding an AsIsNumericalBucketer or AsIsCategoricalBucketer to the prebucketing pipeline.\n" ++
    "Or add an additional bucketing step after the BucketingProcess:\n" ++
    "make_pipeline(BucketingProcess(..), Bucketer())"

/-- The message of the `NotBucketedError` raised by `BucketingProcess.fit`:
joins every offending column with a comma. -/
def notBucketedErrMsg (cols : List String) : String :=
  "The following columns are prebucketed but have not been bucketed: " ++
    String.intercalate ", " cols ++ ".\n" ++
    "Consider updating the bucketing pipeline,\n"

/-- The column-coverage validation of `BucketingProcess.fit` (lines 164-184):
first the bucketed-but-not-prebucketed check, then the
prebucketed-but-not-bucketed check.  `pre` and `bucketed` are the column
lists of the two stages' fitted `FeaturesBucketMapping`s. -/
def validateCoverage (pre bucketed : List String) : Except CoverageError Unit :=
  if (notPreBucketedColumns pre bucketed).length ≠ 0 then
    .error (.notPreBucketed (notPreBucketedColumns pre bucketed))
  else if (notBucketedColumns pre bucketed).length ≠ 0 then
    .error (.notBucketed (notBucketedColumns pre bucketed))
  else .ok ()

/-! ## Fit-time precondition errors
(`bucketers.py`: `OptimalBucketer.fit` lines 129-141,
`AsIsNumericalBucketer.fit` lines 1434-1441,
`DecisionTreeBucketer.fit` lines 868-880) -/

/-- The error kinds a bucketer's `fit` can raise on a precondition violation:
`skorecard.utils.NotPreBucketedError`, or a plain `ValueError`. -/
inductive FitError
  | notPreBucketed (msg : String)
  | valueError (msg : String)
deriving DecidableEq

/-- The `NotPreBucketedError` message of `OptimalBucketer.fit` for a numerical
feature with `n` distinct normal values (whitespace of the original
triple-quoted string normalized; quote characters around the name omitted). -/
def optimalPrebucketErrMsg (feature : String) (n : ℕ) : String :=
  "OptimalBucketer requires numerical feature " ++ feature ++
    " to be pre-bucketed to max 100 unique values (for performance reasons). " ++
    "Currently there are " ++ toString n ++ " unique values present. " ++
    "Apply pre-binning, f.e. with skorecard.bucketers.DecisionTreeBucketer."

/-- The `NotPreBucketedError` message of `AsIsNumericalBucketer.fit`
(quote characters around the name omitted). -/
def asIsPrebucketErrMsg (feature : String) : String :=
  "The column " ++ feature ++ " has more than 100 unique values " ++
    "and cannot be used with the AsIsBucketer." ++
    "Apply a different bucketer first."

/-- The `ValueError` message of `DecisionTreeBucketer.fit` when the leaf
budget is insufficient for the declared special groups.  Note it does not
mention the feature being processed. -/
def dtLeafBudgetErrMsg (nSpecialBins maxNBins : ℕ) : String :=
  "max_n_bins must be at least = the number of special bins + 2: set a value " ++
    "max_n_bins>= " ++ toString (nSpecialBins + 2) ++
    " (currently max_n_bins=" ++ toString maxNBins ++ ")"

/-- The `user_splits` computation of `OptimalBucketer.fit` for a numerical
feature: remove special rows, remove missing rows, take the distinct values,
and fail with `NotPreBucketedError` when more than 100 remain (the sorting
done by `np.unique` is omitted; it does not affect the count or the check). -/
def optimalNumericalUserSplits (feature : String) (xs : List Val)
    (special : SpecialGroups) : Except FitError (List Val) :=
  let uniqValues := (filterNaForFit (filterSpecialsForFit xs special)).dedup
  if uniqValues.length > 100 then
    .error (.notPreBucketed (optimalPrebucketErrMsg feature uniqValues.length))
  else
    .ok uniqValues

/-- The boundary computation of `AsIsNumericalBucketer.fit`: remove special
rows (missing rows are not removed by this bucketer), take the distinct
values, and fail with `NotPreBucketedError` when more than 100 remain
(the Python `boundaries.sort()` is omitted; it does not affect the count
or the check). -/
def asIsNumericalBoundaries (feature : String) (xs : List Val)
    (special : SpecialGroups) : Except FitError (List Val) :=
  let boundaries := (filterSpecialsForFit xs special).dedup
  if boundaries.length > 100 then
    .error (.notPreBucketed (asIsPrebucketErrMsg feature))
  else
    .ok boundaries

/-- A concrete column with 101 distinct values, used to exercise the
pre-bucketing cardinality checks. -/
def bigColumn : List Val :=
  (List.range 101).map (fun i : ℕ => some (i : ℚ))

/-! ## BucketMapping and the bucket table
(`bucket_mapping.py` and the reporting module are not among the sources;
they are modelled from the spec where the claims need them.) -/

/-- Modelled from the spec: the `BucketMapping` dataclass
(`bucket_mapping.py` is not among the sources).  Spec §3: feature name,
feature kind, the boundary sequence (`map`; the categorical category→id
variant is not needed by the claims below), the boundary inclusion side
(`right`), the named special groups, and the missing-bucket policy
(`none` = dedicated bucket `-1`). -/
structure BucketMapping where
  feature_name : String
  type : String
  map : List ℚ
  right : Bool
  specials : SpecialGroups
  missing_bucket : Option Int
deriving DecidableEq

/-- The reserved negative bucket id of the first special group containing
`v`: ids start at `-3` and decrease in declaration order (spec §3). -/
def specialBucketId (special : SpecialGroups) (v : ℚ) : Option Int :=
  match special.findIdx? (fun g => g.2.any (fun w => decide (w = v))) with
  | none => none
  | some i => some (-3 - (i : Int))

/-- Modelled from the spec: `BucketMapping.transform` for a numerical
mapping (`bucket_mapping.py` is not among the sources).  Spec §4.1: a
missing value goes to the missing bucket id (explicit, or `-1`); a value of
a special group goes to the group's reserved negative id; any other value
gets the 0-based index of its partition segment (`np.digitize` semantics:
with `right = true` a boundary belongs to the bucket below it, so the index
is the number of boundaries strictly below the value; with `right = false`
it is the number of boundaries not above it). -/
def transformNumerical (m : BucketMapping) (x : Val) : Int :=
  match x with
  | none => m.missing_bucket.getD (-1)
  | some v =>
    match specialBucketId m.specials v with
    | some b => b
    | none =>
      if m.right then ((m.map.filter (fun b => decide (b < v))).length : Int)
      else ((m.map.filter (fun b => decide (b ≤ v))).length : Int)

/-- One row of a bucket table.  Modelled from the spec: `build_bucket_table`
(the reporting module) is an external collaborator; only the three columns
that the `most_frequent` resolution reads are modelled (spec §3,
"Bucket table"). -/
structure TableRow where
  bucket_id : Int
  label : String
  count : ℕ
deriving DecidableEq

/-- The comparison used by `.sort_values("Count", ascending=False)`. -/
def rowGE (a b : TableRow) : Prop := b.count ≤ a.count

instance : DecidableRel rowGE := fun a b => Nat.decLe _ _

instance : IsTotal TableRow rowGE := ⟨fun a b => le_total b.count a.count⟩

instance : IsTrans TableRow rowGE := ⟨fun _ _ _ hab hbc => le_trans hbc hab⟩

/-- `.sort_values("Count", ascending=False)` on the bucket table.  pandas
leaves the order of equal counts unspecified; insertion sort realizes one
sorted-by-count-descending permutation. -/
def sortByCountDesc (t : List TableRow) : List TableRow :=
  List.insertionSort rowGE t

/-- The `missing_treatment == "most_frequent"` bucket-id resolution that
every bucketer's `fit` repeats verbatim (e.g. `OptimalBucketer.fit` lines
199-214): sort the table by count descending; if the top row is not labeled
`"Missing"` take its bucket id, otherwise take the second row's.  `none`
models the indexing error the source would hit on an empty table or a
single-row all-missing table. -/
def resolveMostFrequent (t : List TableRow) : Option Int :=
  match sortByCountDesc t with
  | [] => none
  | r0 :: rest =>
    if r0.label ≠ "Missing" then some r0.bucket_id
    else
      match rest with
      | [] => none
      | r1 :: _ => some r1.bucket_id

/-- The two-pass `most_frequent` fit step shared by every bucketer
(e.g. `OptimalBucketer.fit` lines 192-231, `EqualWidthBucketer.fit` lines
358-398): build the bucket table for the mapping with the placeholder
missing bucket, resolve the most frequent bucket id from it, reconstruct
the `BucketMapping` with that id, and recompute the bucket table exactly
once more.  `mk o` is the `BucketMapping(...)` constructor call with
`missing_bucket = o` and all other arguments fixed; `buildTable` abstracts
the external `build_bucket_table` collaborator. -/
def mostFrequentFit (mk : Option Int → BucketMapping)
    (buildTable : BucketMapping → List TableRow) :
    Option (BucketMapping × List TableRow) :=
  match resolveMostFrequent (buildTable (mk none)) with
  | none => none
  | some i => some (mk (some i), buildTable (mk (some i)))

/-- A concrete `BucketMapping` constructor for the `most_frequent`
witness. -/
def mfMk (o : Option Int) : BucketMapping :=
  ⟨"LIMIT_BAL", "numerical", [25], true, [], o⟩

/-- A concrete bucket-table builder for the `most_frequent` witness: with
the placeholder mapping the missing rows form their own bucket; after the
resolution they are counted into bucket `1`. -/
def mfTable (m : BucketMapping) : List TableRow :=
  if m.missing_bucket = some 1 then
    [⟨0, "below 25", 2⟩, ⟨1, "above 25 | Missing", 8⟩]
  else
    [⟨-1, "Missing", 3⟩, ⟨0, "below 25", 2⟩, ⟨1, "above 25", 5⟩]

/-! ## BucketingProcess: remapping the specials between the stages
(`bucketing_process.py`, `_find_remapped_specials` lines 312-333 and
`BucketingProcess.fit` lines 147-158) -/

/-- `_find_remapped_specials` (`bucketing_process.py` lines 312-333).
`bucketLabels` is the prebucketing mapping's `labels` dict (bucket id →
label) in its iteration order; `varSpecials` the special groups declared
for the variable.  The Python inner loop re-assigns `new_specials[label] =
[bucket]` on every match, so only the last matching bucket survives; the
`None`-input guards of the source return the empty dict and have no `List`
counterpart. -/
def findRemappedSpecials (bucketLabels : List (Int × String))
    (varSpecials : SpecialGroups) : List (String × List Int) :=
  varSpecials.filterMap (fun g =>
    match (bucketLabels.filter
        (fun bl => decide (bl.2 = "Special: " ++ g.1))).getLast? with
    | none => none
    | some bl => some (g.1, [bl.1]))

/-- The specification's reading of the remapping (spec §4.3 step 2 and §9):
a group named `L` becomes a stage-2 special whose value list is exactly the
pre-bucket id(s) whose prebucketing label equals `"Special: L"`; groups
with no matching label are omitted. -/
def remapSpecialsSpec (bucketLabels : List (Int × String))
    (varSpecials : SpecialGroups) : List (String × List Int) :=
  varSpecials.filterMap (fun g =>
    let matched := bucketLabels.filter (fun bl => decide (bl.2 = "Special: " ++ g.1))
    if matched.length ≠ 0 then some (g.1, matched.map Prod.fst) else none)

/-- The per-variable specials loop of `BucketingProcess.fit` (lines
147-151): a variable receives a stage-2 specials entry only when
`_find_remapped_specials` returned a non-empty dict. -/
def bucketingSpecialsEntry (bucketLabels : List (Int × String))
    (varSpecials : SpecialGroups) : Option (List (String × List Int)) :=
  let newSpecials := findRemappedSpecials bucketLabels varSpecials
  if newSpecials.length ≠ 0 then some newSpecials else none

/-- A bucketer step of the bucketing pipeline, reduced to the fields the
specials assignment touches. -/
structure PipelineStep where
  name : String
  specials : List (String × List (String × List Int))
deriving DecidableEq

/-- The assignment loop of `BucketingProcess.fit` (lines 153-158): every
step of the bucketing pipeline gets the remapped specials before the
pipeline is fitted. -/
def assignBucketingSpecials (steps : List PipelineStep)
    (bucketingSpecials : List (String × List (String × List Int))) :
    List PipelineStep :=
  steps.map (fun st => { st with specials := bucketingSpecials })

/-! ## EqualWidthBucketer (`bucketers.py` lines 310-356) -/

/-- `np.histogram(values, bins=n)` bin edges: `n + 1` equally spaced edges
from the minimum to the maximum of the values (the only part of the
external numpy call that `EqualWidthBucketer.fit` consumes). -/
def histogramEdges (xs : List ℚ) (n : ℕ) : List ℚ :=
  match xs.min?, xs.max? with
  | some lo, some hi => (List.range (n + 1)).map (fun i => lo + (hi - lo) * i / n)
  | _, _ => []

/-- The per-feature fit of `EqualWidthBucketer.fit` (lines 319-356): filter
special rows and missing rows, compute the histogram edges, drop the outer
min/max edges, and build the numerical `BucketMapping` (`right=True`;
placeholder missing bucket for the `"separate"` treatment). -/
def equalWidthFitMapping (feature : String) (special : SpecialGroups)
    (xs : List Val) (nBins : ℕ) : BucketMapping :=
  let flt := (filterNaForFit (filterSpecialsForFit xs special)).reduceOption
  let boundaries := ((histogramEdges flt nBins).drop 1).dropLast
  ⟨feature, "numerical", boundaries, true, special, none⟩

/-! ## EqualFrequencyBucketer (`bucketers.py` lines 654-717) -/

/-- `pd.qcut(..., duplicates="raise")`: pandas raises `ValueError` when the
computed quantile edges contain duplicates, and returns the edges
otherwise.  The quantile computation itself is external; `edges` is its
result. -/
def qcutRaise (edges : List ℚ) : Except String (List ℚ) :=
  if edges.Nodup then .ok edges else .error "Bin edges must be unique"

/-- `pd.qcut(..., duplicates="drop")`: the same edges with duplicates
dropped. -/
def qcutDrop (edges : List ℚ) : List ℚ :=
  edges.dedup

/-- The interior of the edge list: `boundaries[1:-1]` of
`EqualFrequencyBucketer.fit` (line 699), dropping the outer min/max
edges. -/
def interiorEdges (l : List ℚ) : List ℚ :=
  (l.drop 1).dropLast

/-- The result of one feature's `EqualFrequencyBucketer.fit`: the built
mapping, and whether an `ApproximationWarning` was issued. -/
structure EqFreqFitResult where
  mapping : BucketMapping
  warned : Bool
deriving DecidableEq

/-- The try/except quantile fallback of `EqualFrequencyBucketer.fit` (lines
678-717): attempt the strict quantile cut; on the duplicate-edge
`ValueError` retry dropping duplicate edges and warn; either way drop the
outer edges and build the numerical `BucketMapping` (`right=True`). -/
def equalFrequencyFit (feature : String) (special : SpecialGroups)
    (edges : List ℚ) : EqFreqFitResult :=
  match qcutRaise edges with
  | .ok bs =>
      { mapping := ⟨feature, "numerical", interiorEdges bs, true, special, none⟩
        warned := false }
  | .error _ =>
      { mapping := ⟨feature, "numerical", interiorEdges (qcutDrop edges), true, special, none⟩
        warned := true }

/-! ## DecisionTreeBucketer (`bucketers.py` lines 858-932) -/

/-- The per-feature fit of `DecisionTreeBucketer.fit` (lines 868-917).
`special?` is `some groups` when the feature appears in the `specials`
dict.  The `DecisionTreeClassifier` is an external solver, abstracted as
`treeFit max_leaf_nodes min_samples_leaf` returning the distinct split
thresholds. -/
def dtFeatureSplits (feature : String) (xs : List Val)
    (special? : Option SpecialGroups) (maxNBins : ℕ) (minBinSize : ℚ)
    (treeFit : ℤ → ℚ → List ℚ) : Except FitError (List ℚ) :=
  let special : SpecialGroups := special?.getD []
  let nSpecialBins : ℕ := special.length
  if special?.isSome && decide ((maxNBins : ℤ) - (nSpecialBins : ℤ) ≤ 1) then
    .error (.valueError (dtLeafBudgetErrMsg nSpecialBins maxNBins))
  else
    let flt := filterNaForFit (filterSpecialsForFit xs special)
    let fracLeft : ℚ := (flt.length : ℚ) / (xs.length : ℚ)
    if 0 < fracLeft then
      let minBinSizeScaled := minBinSize / fracLeft
      let minBinSizeCapped := if minBinSizeScaled > 1 / 2 then 1 / 2 else minBinSizeScaled
      .ok (treeFit ((maxNBins : ℤ) - (nSpecialBins : ℤ)) minBinSizeCapped)
    else
      .ok []

/-! ## AgglomerativeClusteringBucketer (`bucketers.py` lines 478-522) -/

/-- The values of one cluster: the rows of
`pd.DataFrame({"x": values, "label": labels})` carrying label `l`
(the `sort_values(by="x")` of the source does not affect the group minima
and maxima and is omitted). -/
def clusterValues (vs : List ℚ) (ls : List ℕ) (l : ℕ) : List ℚ :=
  ((vs.zip ls).filter (fun p => decide (p.2 = l))).map Prod.fst

/-- `df.groupby("label")["x"].min()` for one label (`0` for an empty
cluster; clusters of realized labels are never empty). -/
def clusterMin (vs : List ℚ) (ls : List ℕ) (l : ℕ) : ℚ :=
  match clusterValues vs ls l with
  | [] => 0
  | x :: rest => rest.foldl min x

/-- `df.groupby("label")["x"].max()` for one label. -/
def clusterMax (vs : List ℚ) (ls : List ℕ) (l : ℕ) : ℚ :=
  match clusterValues vs ls l with
  | [] => 0
  | x :: rest => rest.foldl max x

/-- `.sort_values()` on a list of rationals. -/
def sortQ (l : List ℚ) : List ℚ :=
  List.insertionSort (fun a b => a ≤ b) l

/-- The boundary computation of `AgglomerativeClusteringBucketer.fit`
(lines 505-522): sort the per-cluster minima and the per-cluster maxima,
and take the mean of the upper boundary of a cluster and the lower boundary
of the next cluster.  `ls` are the raw cluster labels returned by the
external `AgglomerativeClustering` solver, aligned with the values `vs`. -/
def agglomBoundaries (vs : List ℚ) (ls : List ℕ) : List ℚ :=
  let clusterMinimumValues := sortQ (ls.dedup.map (clusterMin vs ls))
  let clusterMaximumValues := sortQ (ls.dedup.map (clusterMax vs ls))
  (List.range (clusterMinimumValues.length - 1)).map
    (fun i => (clusterMinimumValues.getD (i + 1) 0 + clusterMaximumValues.getD i 0) / 2)

/-! ### Helper lemmas about `String.intercalate` -/

theorem isSpecialValue_nil (x : Val) : isSpecialValue [] x = false := by
  cases x <;> rfl

theorem bigColumn_dedup_large :
    100 < ((filterSpecialsForFit bigColumn []).dedup).length := by
  have hflt : filterSpecialsForFit bigColumn [] = bigColumn := by
    unfold filterSpecialsForFit
    rw [List.filter_eq_self]
    intro a _
    rw [isSpecialValue_nil]
    rfl
  have hf : Function.Injective (fun i : ℕ => (some (i : ℚ) : Val)) := by
    intro a b hab
    have : ((a : ℚ)) = ((b : ℚ)) := by injection hab
    exact_mod_cast this
  have hnd : bigColumn.Nodup := by
    unfold bigColumn
    exact List.Nodup.map hf (List.nodup_range 101)
  rw [hflt, List.Nodup.dedup hnd]
  unfold bigColumn
  rw [List.length_map, List.length_range]
  omega

theorem infix_intercalate_go (s : String) (l : List String) (acc : String) :
    acc.data <:+: (String.intercalate.go acc s l).data := by
  induction l generalizing acc with
  | nil => exact List.infix_rfl
  | cons a as ih =>
    refine List.IsInfix.trans ?_ (ih (acc ++ s ++ a))
    exact ⟨[], s.data ++ a.data, by simp [String.data_append]⟩

theorem infix_intercalate_go_mem (s c : String) :
    ∀ (l : List String) (acc : String), c ∈ l →
      c.data <:+: (String.intercalate.go acc s l).data
  | a :: as, acc, h => by
    rcases List.mem_cons.mp h with rfl | h'
    · refine List.IsInfix.trans ?_ (infix_intercalate_go s as (acc ++ s ++ c))
      exact ⟨acc.data ++ s.data, [], by simp [String.data_append]⟩
    · exact infix_intercalate_go_mem s c as (acc ++ s ++ a) h'

theorem mem_infix_intercalate (s : String) {c : String} {l : List String}
    (h : c ∈ l) : c.data <:+: (String.intercalate s l).data := by
  cases l with
  | nil => cases h
  | cons a as =>
    rcases List.mem_cons.mp h with rfl | h'
    · exact infix_intercalate_go s as c
    · exact infix_intercalate_go_mem s c as a h'

theorem mem_notPreBucketedColumns {pre bucketed : List String} {c : String} :
    c ∈ notPreBucketedColumns pre bucketed ↔ c ∈ bucketed ∧ c ∉ pre := by
  simp [notPreBucketedColumns, List.mem_filter]

theorem mem_notBucketedColumns {pre bucketed : List String} {c : String} :
    c ∈ notBucketedColumns pre bucketed ↔ c ∈ pre ∧ c ∉ bucketed := by
  simp [notBucketedColumns, List.mem_filter]

/-- C1 (counterexample): with prebucketed columns `["a", "b"]` and bucketed
columns `["a", "c"]`, the column `"b"` is prebucketed but not bucketed, yet
`BucketingProcess.fit` raises `NotPreBucketedError` (about `"c"`), not the
`NotBucketedError` the claim promises: the not-pre-bucketed check runs first
and takes precedence. -/
theorem coverage_validation_counterexample :
    ("b" ∈ (["a", "b"] : List String) ∧ "b" ∉ (["a", "c"] : List String)) ∧
    validateCoverage ["a", "b"] ["a", "c"] = .error (.notPreBucketed ["c"]) ∧
    ∀ cols, validateCoverage ["a", "b"] ["a", "c"] ≠ .error (.notBucketed cols) := by
  refine ⟨by decide, rfl, ?_⟩
  intro cols h
  have heq : validateCoverage ["a", "b"] ["a", "c"] =
      .error (.notPreBucketed ["c"]) := rfl
  rw [heq] at h
  injection h with h'
  exact CoverageError.noConfusion h'

/-- C1 (amended): `BucketingProcess.fit` validates that the two stages cover
the same columns.  Fit passes the validation iff the covered column sets are
identical; if some bucketed column is not prebucketed it raises
`NotPreBucketedError`; otherwise, if some prebucketed column is not bucketed
it raises `NotBucketedError` (the not-pre-bucketed check takes precedence
when both asymmetries exist).  The two error kinds are distinguishable
constructors, and each carries — and its message lists — every offending
column. -/
theorem coverage_validation (pre bucketed : List String) :
    (validateCoverage pre bucketed = .ok () ↔
      (∀ c ∈ bucketed, c ∈ pre) ∧ ∀ c ∈ pre, c ∈ bucketed) ∧
    ((∃ c ∈ bucketed, c ∉ pre) →
      validateCoverage pre bucketed =
        .error (.notPreBucketed (notPreBucketedColumns pre bucketed))) ∧
    ((∀ c ∈ bucketed, c ∈ pre) → (∃ c ∈ pre, c ∉ bucketed) →
      validateCoverage pre bucketed =
        .error (.notBucketed (notBucketedColumns pre bucketed))) ∧
    (∀ c, c ∈ notPreBucketedColumns pre bucketed ↔ c ∈ bucketed ∧ c ∉ pre) ∧
    (∀ c, c ∈ notBucketedColumns pre bucketed ↔ c ∈ pre ∧ c ∉ bucketed) ∧
    (∀ c ∈ notPreBucketedColumns pre bucketed,
      c.data <:+: (notPreBucketedErrMsg (notPreBucketedColumns pre bucketed)).data) ∧
    (∀ c ∈ notBucketedColumns pre bucketed,
      c.data <:+: (notBucketedErrMsg (notBucketedColumns pre bucketed)).data) := by
  have hnp : notPreBucketedColumns pre bucketed = [] ↔ ∀ c ∈ bucketed, c ∈ pre := by
    constructor
    · intro h c hc
      by_contra hcp
      exact List.not_mem_nil c (h ▸ mem_notPreBucketedColumns.mpr ⟨hc, hcp⟩)
    · intro h
      refine List.eq_nil_iff_forall_not_mem.mpr (fun c hc => ?_)
      rcases mem_notPreBucketedColumns.mp hc with ⟨h1, h2⟩
      exact h2 (h c h1)
  have hnb : notBucketedColumns pre bucketed = [] ↔ ∀ c ∈ pre, c ∈ bucketed := by
    constructor
    · intro h c hc
      by_contra hcp
      exact List.not_mem_nil c (h ▸ mem_notBucketedColumns.mpr ⟨hc, hcp⟩)
    · intro h
      refine List.eq_nil_iff_forall_not_mem.mpr (fun c hc => ?_)
      rcases mem_notBucketedColumns.mp hc with ⟨h1, h2⟩
      exact h2 (h c h1)
  refine ⟨?_, ?_, ?_, fun c => mem_notPreBucketedColumns, fun c => mem_notBucketedColumns,
      ?_, ?_⟩
  · constructor
    · intro h
      unfold validateCoverage at h
      by_cases h1 : (notPreBucketedColumns pre bucketed).length ≠ 0
      · rw [if_pos h1] at h; simp at h
      · by_cases h2 : (notBucketedColumns pre bucketed).length ≠ 0
        · rw [if_neg h1, if_pos h2] at h; simp at h
        · exact ⟨hnp.mp (List.length_eq_zero.mp (by omega)),
            hnb.mp (List.length_eq_zero.mp (by omega))⟩
    · intro ⟨h1, h2⟩
      unfold validateCoverage
      rw [if_neg (by simp [hnp.mpr h1]), if_neg (by simp [hnb.mpr h2])]
  · intro ⟨c, hc, hcp⟩
    have hne : notPreBucketedColumns pre bucketed ≠ [] := fun h =>
      List.not_mem_nil c (h ▸ mem_notPreBucketedColumns.mpr ⟨hc, hcp⟩)
    unfold validateCoverage
    rw [if_pos (by simpa [List.length_eq_zero] using hne)]
  · intro h1 ⟨c, hc, hcb⟩
    have hne : notBucketedColumns pre bucketed ≠ [] := fun h =>
      List.not_mem_nil c (h ▸ mem_notBucketedColumns.mpr ⟨hc, hcb⟩)
    unfold validateCoverage
    rw [if_neg (by simp [hnp.mpr h1]), if_pos (by simpa [List.length_eq_zero] using hne)]
  · intro c hc
    exact List.IsInfix.trans (mem_infix_intercalate ", " hc)
      ⟨("The following columns are bucketed but have not been pre-bucketed: ").data,
        (".\n" ++
          "Consider adding an AsIsNumericalBucketer or AsIsCategoricalBucketer to the prebucketing pipeline.\n" ++
          "Or add an additional bucketing step after the BucketingProcess:\n" ++
          "make_pipeline(BucketingProcess(..), Bucketer())").data,
        by simp [notPreBucketedErrMsg, String.data_append]⟩
  · intro c hc
    exact List.IsInfix.trans (mem_infix_intercalate ", " hc)
      ⟨("The following columns are prebucketed but have not been bucketed: ").data,
        (".\n" ++ "Consider updating the bucketing pipeline,\n").data,
        by simp [notBucketedErrMsg, String.data_append]⟩

/-- C1 (witness): concrete runs of the coverage validation exercising all
three outcomes. -/
theorem coverage_validation_witness :
    validateCoverage ["a", "b"] ["a", "b"] = .ok () ∧
    validateCoverage ["a"] ["a", "b"] = .error (.notPreBucketed ["b"]) ∧
    validateCoverage ["a", "b"] ["a"] = .error (.notBucketed ["b"]) := by
  refine ⟨(coverage_validation ["a", "b"] ["a", "b"]).1.mpr ⟨by decide, by decide⟩, ?_, ?_⟩
  · have h := (coverage_validation ["a"] ["a", "b"]).2.1 ⟨"b", by decide, by decide⟩
    rwa [show notPreBucketedColumns ["a"] ["a", "b"] = ["b"] from by decide] at h
  · have h := (coverage_validation ["a", "b"] ["a"]).2.2.1 (by decide) ⟨"b", by decide, by decide⟩
    rwa [show notBucketedColumns ["a", "b"] ["a"] = ["b"] from by decide] at h

/-- C2: for a numerical feature, `OptimalBucketer.fit` raises
`NotPreBucketedError` iff the feature has more than 100 distinct normal
(non-special, non-missing) values, and proceeds otherwise;
`AsIsNumericalBucketer.fit` raises the same error kind iff more than 100
distinct values remain after removing special rows, and proceeds
otherwise. -/
theorem not_prebucketed_precondition (feature : String) (xs : List Val)
    (special : SpecialGroups) :
    (100 < ((filterNaForFit (filterSpecialsForFit xs special)).dedup).length →
      optimalNumericalUserSplits feature xs special =
        .error (.notPreBucketed (optimalPrebucketErrMsg feature
          ((filterNaForFit (filterSpecialsForFit xs special)).dedup).length))) ∧
    (((filterNaForFit (filterSpecialsForFit xs special)).dedup).length ≤ 100 →
      optimalNumericalUserSplits feature xs special =
        .ok ((filterNaForFit (filterSpecialsForFit xs special)).dedup)) ∧
    (100 < ((filterSpecialsForFit xs special).dedup).length →
      asIsNumericalBoundaries feature xs special =
        .error (.notPreBucketed (asIsPrebucketErrMsg feature))) ∧
    (((filterSpecialsForFit xs special).dedup).length ≤ 100 →
      asIsNumericalBoundaries feature xs special =
        .ok ((filterSpecialsForFit xs special).dedup)) := by
  refine ⟨fun h => ?_, fun h => ?_, fun h => ?_, fun h => ?_⟩ <;>
    simp only [optimalNumericalUserSplits, asIsNumericalBoundaries] <;>
    split_ifs with hc <;> first | rfl | omega

/-- C2 (witness): a feature with 2 distinct normal values passes both
prechecks, and one with 101 distinct values fails both with
`NotPreBucketedError`. -/
theorem not_prebucketed_precondition_witness :
    optimalNumericalUserSplits "LIMIT_BAL"
        [some 10, some 20, some 10, none, some 999] [("=999", [999])] =
      .ok [some 20, some 10] ∧
    asIsNumericalBoundaries "BILL_AMT1" bigColumn [] =
      .error (.notPreBucketed (asIsPrebucketErrMsg "BILL_AMT1")) := by
  refine ⟨?_, ?_⟩
  · have h := (not_prebucketed_precondition "LIMIT_BAL"
      [some 10, some 20, some 10, none, some 999] [("=999", [999])]).2.1 (by decide)
    rwa [show (filterNaForFit (filterSpecialsForFit
        [some 10, some 20, some 10, none, some 999] [("=999", [999])])).dedup =
        [some 20, some 10] from by decide] at h
  · exact (not_prebucketed_precondition "BILL_AMT1" bigColumn []).2.2.1
      bigColumn_dedup_large

/-! ### The `most_frequent` missing-bucket resolution -/

theorem sortByCountDesc_perm (t : List TableRow) : (sortByCountDesc t).Perm t :=
  List.perm_insertionSort rowGE t

theorem sortByCountDesc_sorted (t : List TableRow) :
    List.Sorted rowGE (sortByCountDesc t) :=
  List.sorted_insertionSort rowGE t

theorem resolveMostFrequent_spec (t : List TableRow)
    (h1 : (t.filter (fun r => decide (r.label = "Missing"))).length ≤ 1)
    (h2 : ∃ r ∈ t, r.label ≠ "Missing") :
    ∃ r ∈ t, r.label ≠ "Missing" ∧
      (∀ q ∈ t, q.label ≠ "Missing" → q.count ≤ r.count) ∧
      resolveMostFrequent t = some r.bucket_id := by
  have hperm : (sortByCountDesc t).Perm t := sortByCountDesc_perm t
  have hsort : List.Sorted rowGE (sortByCountDesc t) := sortByCountDesc_sorted t
  have hres : resolveMostFrequent t =
      match sortByCountDesc t with
      | [] => none
      | r0 :: rest =>
        if r0.label ≠ "Missing" then some r0.bucket_id
        else
          match rest with
          | [] => none
          | r1 :: _ => some r1.bucket_id := rfl
  rcases hE : sortByCountDesc t with _ | ⟨r0, rest⟩
  · rw [hE] at hperm
    rcases h2 with ⟨r, hr, _⟩
    exact absurd (hperm.mem_iff.mpr hr) (List.not_mem_nil r)
  · rw [hE] at hperm hsort
    by_cases hl : r0.label = "Missing"
    · rcases rest with _ | ⟨r1, rest2⟩
      · rcases h2 with ⟨r, hr, hrl⟩
        have : r ∈ [r0] := hperm.mem_iff.mpr hr
        rcases List.mem_singleton.mp this with rfl
        exact absurd hl hrl
      · have hfl : ((r0 :: r1 :: rest2).filter
            (fun r => decide (r.label = "Missing"))).length ≤ 1 := by
          rw [(hperm.filter (fun r => decide (r.label = "Missing"))).length_eq]
          exact h1
        have hl1 : r1.label ≠ "Missing" := by
          intro hcon
          simp [List.filter_cons, hl, hcon] at hfl
        refine ⟨r1, hperm.mem_iff.mp (List.mem_cons_of_mem r0 (List.mem_cons_self r1 rest2)),
          hl1, fun q hq hql => ?_, ?_⟩
        · rcases List.mem_cons.mp (hperm.mem_iff.mpr hq) with rfl | hq'
          · exact absurd hl hql
          · rcases List.mem_cons.mp hq' with rfl | hq''
            · exact le_refl _
            · exact List.rel_of_sorted_cons hsort.of_cons q hq''
        · rw [hres, hE]
          simp [hl]
    · refine ⟨r0, hperm.mem_iff.mp (List.mem_cons_self r0 rest), hl,
        fun q hq hql => ?_, ?_⟩
      · rcases List.mem_cons.mp (hperm.mem_iff.mpr hq) with rfl | hq'
        · exact le_refl _
        · exact List.rel_of_sorted_cons hsort q hq'
      · rw [hres, hE]
        simp [hl]

/-- C3: with `missing_treatment="most_frequent"`, a bucketer's fit builds
the bucket table once for the placeholder mapping, resolves the missing
bucket id as the bucket id of the highest-count row not labeled `"Missing"`
(which is the second-most-frequent row when the most frequent one is the
`"Missing"` row itself), reconstructs the `BucketMapping` with that id, and
recomputes the bucket table exactly once more. -/
theorem most_frequent_two_pass (mk : Option Int → BucketMapping)
    (buildTable : BucketMapping → List TableRow)
    (h1 : ((buildTable (mk none)).filter
      (fun r => decide (r.label = "Missing"))).length ≤ 1)
    (h2 : ∃ r ∈ buildTable (mk none), r.label ≠ "Missing") :
    ∃ r ∈ buildTable (mk none), r.label ≠ "Missing" ∧
      (∀ q ∈ buildTable (mk none), q.label ≠ "Missing" → q.count ≤ r.count) ∧
      resolveMostFrequent (buildTable (mk none)) = some r.bucket_id ∧
      mostFrequentFit mk buildTable =
        some (mk (some r.bucket_id), buildTable (mk (some r.bucket_id))) := by
  rcases resolveMostFrequent_spec (buildTable (mk none)) h1 h2 with ⟨r, hr, hrl, hmax, hres⟩
  refine ⟨r, hr, hrl, hmax, hres, ?_⟩
  unfold mostFrequentFit
  rw [hres]

/-- C3 (witness): a concrete table whose `"Missing"` row (3 rows) is less
frequent than bucket `1` (5 rows); the resolution picks bucket `1` and the
table is rebuilt with the missings counted into it. -/
theorem most_frequent_two_pass_witness :
    mostFrequentFit mfMk mfTable = some (mfMk (some 1), mfTable (mfMk (some 1))) := by
  rcases most_frequent_two_pass mfMk mfTable (by decide) (by decide) with
    ⟨r, hr, hrl, hmax, hres, heq⟩
  have hval : resolveMostFrequent (mfTable (mfMk none)) = some 1 := by decide
  rw [hval] at hres
  injection hres with hid
  rw [← hid] at heq
  exact heq

/-! ### DecisionTreeBucketer constraints -/

theorem ite_gt_half_eq_min (a : ℚ) :
    (if a > 1 / 2 then (1 : ℚ) / 2 else a) = min a (1 / 2) := by
  rcases le_or_lt a (1 / 2) with h | h
  · rw [if_neg (not_lt.mpr h), min_eq_left h]
  · rw [if_pos h, min_eq_right h.le]

/-- C6: for every feature, `DecisionTreeBucketer.fit` constrains the tree to
`max_n_bins - (number of special groups)` leaves, rescales the minimum
leaf-population fraction to `min_bin_size` divided by the fraction of rows
surviving the specials and missing filters and caps it at `1/2`, and when
every row is a special value it skips the tree entirely and yields an empty
boundary sequence. -/
theorem decision_tree_constraints (feature : String) (xs : List Val)
    (special : SpecialGroups) (maxNBins : ℕ) (minBinSize : ℚ)
    (treeFit : ℤ → ℚ → List ℚ)
    (hbudget : 1 < (maxNBins : ℤ) - (special.length : ℤ)) :
    (filterNaForFit (filterSpecialsForFit xs special) ≠ [] →
      dtFeatureSplits feature xs (some special) maxNBins minBinSize treeFit =
        .ok (treeFit ((maxNBins : ℤ) - (special.length : ℤ))
          (min (minBinSize /
            (((filterNaForFit (filterSpecialsForFit xs special)).length : ℚ) /
              (xs.length : ℚ))) (1 / 2)))) ∧
    ((∀ x ∈ xs, isSpecialValue special x = true) →
      dtFeatureSplits feature xs (some special) maxNBins minBinSize treeFit =
        .ok []) := by
  have hcond : (((some special : Option SpecialGroups)).isSome &&
      decide ((maxNBins : ℤ) - ((special.length : ℕ) : ℤ) ≤ 1)) = false := by
    simp only [Option.isSome_some, Bool.true_and, decide_eq_false_iff_not]
    omega
  constructor
  · intro hflt
    have hlen : 0 < (filterNaForFit (filterSpecialsForFit xs special)).length :=
      List.length_pos.mpr hflt
    have hle1 : (filterNaForFit (filterSpecialsForFit xs special)).length ≤
        (filterSpecialsForFit xs special).length := List.length_filter_le _ _
    have hle2 : (filterSpecialsForFit xs special).length ≤ xs.length :=
      List.length_filter_le _ _
    have hxs : 0 < xs.length := lt_of_lt_of_le hlen (le_trans hle1 hle2)
    have hfrac : (0 : ℚ) <
        ((filterNaForFit (filterSpecialsForFit xs special)).length : ℚ) /
          (xs.length : ℚ) :=
      div_pos (by exact_mod_cast hlen) (by exact_mod_cast hxs)
    unfold dtFeatureSplits
    simp only [Option.getD_some, hcond, Bool.false_eq_true, if_false,
      if_pos hfrac, ite_gt_half_eq_min]
  · intro hsp
    have hflt : filterSpecialsForFit xs special = [] := by
      unfold filterSpecialsForFit
      rw [List.filter_eq_nil_iff]
      intro a ha
      simp [hsp a ha]
    unfold dtFeatureSplits
    simp only [Option.getD_some, hcond, Bool.false_eq_true, if_false, hflt]
    rw [if_neg]
    unfold filterNaForFit
    simp

/-- C6 (witness): with one special group and `max_n_bins = 10` the tree is
invoked (three of four rows survive the filters); with every row special
the boundaries are empty without invoking the tree. -/
theorem decision_tree_constraints_witness :
    dtFeatureSplits "LIMIT_BAL" [some 1, some 2, some 3, some 999]
        (some [("=999", [999])]) 10 (1 / 20) (fun _ _ => [5 / 2]) =
      .ok [5 / 2] ∧
    dtFeatureSplits "LIMIT_BAL" [some 999, some 999]
        (some [("=999", [999])]) 10 (1 / 20) (fun _ _ => [5 / 2]) = .ok [] := by
  constructor
  · have h := (decision_tree_constraints "LIMIT_BAL"
      [some 1, some 2, some 3, some 999] [("=999", [999])] 10 (1 / 20)
      (fun _ _ => [5 / 2]) (by decide)).1 (by decide)
    simpa using h
  · exact (decision_tree_constraints "LIMIT_BAL" [some 999, some 999]
      [("=999", [999])] 10 (1 / 20) (fun _ _ => [5 / 2]) (by decide)).2 (by decide)

/-! ### Precondition error messages -/

/-- C7 (counterexample): at `max_n_bins = 3` with two declared special
groups on feature `"BILL_AMT1"`, `DecisionTreeBucketer.fit` aborts with the
leaf-budget `ValueError`; its message names the violated threshold
(`max_n_bins >= 4`) but does not name the offending feature. -/
theorem precondition_error_message_counterexample :
    dtFeatureSplits "BILL_AMT1" [some 1, some 2]
        (some [("first", [1]), ("second", [2])]) 3 (1 / 20) (fun _ _ => []) =
      .error (.valueError (dtLeafBudgetErrMsg 2 3)) ∧
    ¬ ("BILL_AMT1".data <:+: (dtLeafBudgetErrMsg 2 3).data) ∧
    ((toString (2 + 2)).data <:+: (dtLeafBudgetErrMsg 2 3).data) := by
  exact ⟨rfl, by decide, by decide⟩

/-- C7 (amended): every fit-time precondition error aborts the fit; the
Optimal and AsIsNumerical messages name both the offending feature and the
100-distinct-values threshold; the DecisionTree leaf-budget message names
the violated threshold (the required minimum `special count + 2` and the
current `max_n_bins`) but not the feature. -/
theorem precondition_error_messages (feature : String) (xs : List Val)
    (special : SpecialGroups) (n maxNBins : ℕ) (minBinSize : ℚ)
    (treeFit : ℤ → ℚ → List ℚ) :
    (100 < ((filterNaForFit (filterSpecialsForFit xs special)).dedup).length →
      optimalNumericalUserSplits feature xs special =
        .error (.notPreBucketed (optimalPrebucketErrMsg feature
          ((filterNaForFit (filterSpecialsForFit xs special)).dedup).length))) ∧
    (feature.data <:+: (optimalPrebucketErrMsg feature n).data) ∧
    ("100".data <:+: (optimalPrebucketErrMsg feature n).data) ∧
    (100 < ((filterSpecialsForFit xs special).dedup).length →
      asIsNumericalBoundaries feature xs special =
        .error (.notPreBucketed (asIsPrebucketErrMsg feature))) ∧
    (feature.data <:+: (asIsPrebucketErrMsg feature).data) ∧
    ("100".data <:+: (asIsPrebucketErrMsg feature).data) ∧
    ((maxNBins : ℤ) - (special.length : ℤ) ≤ 1 →
      dtFeatureSplits feature xs (some special) maxNBins minBinSize treeFit =
        .error (.valueError (dtLeafBudgetErrMsg special.length maxNBins))) ∧
    ((toString (special.length + 2)).data <:+:
      (dtLeafBudgetErrMsg special.length maxNBins).data) ∧
    ((toString maxNBins).data <:+: (dtLeafBudgetErrMsg special.length maxNBins).data) := by
  refine ⟨fun h => ?_, ?_, ?_, fun h => ?_, ?_, ?_, fun h => ?_, ?_, ?_⟩
  · unfold optimalNumericalUserSplits
    rw [if_pos h]
  · exact ⟨("OptimalBucketer requires numerical feature ").data,
      (" to be pre-bucketed to max 100 unique values (for performance reasons). " ++
        ("Currently there are " ++ toString n ++ " unique values present. ") ++
        "Apply pre-binning, f.e. with skorecard.bucketers.DecisionTreeBucketer.").data,
      by simp [optimalPrebucketErrMsg, String.data_append]⟩
  · refine List.IsInfix.trans
      (show "100".data <:+:
        (" to be pre-bucketed to max 100 unique values (for performance reasons). ").data
        from by decide) ?_
    exact ⟨("OptimalBucketer requires numerical feature ").data ++ feature.data,
      (("Currently there are " ++ toString n ++ " unique values present. ") ++
        "Apply pre-binning, f.e. with skorecard.bucketers.DecisionTreeBucketer.").data,
      by simp [optimalPrebucketErrMsg, String.data_append]⟩
  · unfold asIsNumericalBoundaries
    rw [if_pos h]
  · exact ⟨("The column ").data,
      (" has more than 100 unique values " ++
        "and cannot be used with the AsIsBucketer." ++
        "Apply a different bucketer first.").data,
      by simp [asIsPrebucketErrMsg, String.data_append]⟩
  · refine List.IsInfix.trans
      (show "100".data <:+: (" has more than 100 unique values ").data from by decide) ?_
    exact ⟨("The column ").data ++ feature.data,
      ("and cannot be used with the AsIsBucketer." ++
        "Apply a different bucketer first.").data,
      by simp [asIsPrebucketErrMsg, String.data_append]⟩
  · unfold dtFeatureSplits
    simp only [Option.getD_some, Option.isSome_some, Bool.true_and]
    rw [if_pos (decide_eq_true h)]
  · exact ⟨("max_n_bins must be at least = the number of special bins + 2: set a value " ++
        "max_n_bins>= ").data,
      (" (currently max_n_bins=" ++ toString maxNBins ++ ")").data,
      by simp [dtLeafBudgetErrMsg, String.data_append]⟩
  · exact ⟨(("max_n_bins must be at least = the number of special bins + 2: set a value " ++
        "max_n_bins>= ") ++ toString (special.length + 2) ++ " (currently max_n_bins=").data,
      (")" : String).data,
      by simp [dtLeafBudgetErrMsg, String.data_append]⟩

/-- C7 (witness): the error-raising implications at concrete inputs. -/
theorem precondition_error_messages_witness :
    asIsNumericalBoundaries "f1" bigColumn [] =
      .error (.notPreBucketed (asIsPrebucketErrMsg "f1")) ∧
    dtFeatureSplits "f1" [some 1] (some [("a", [1]), ("b", [2])]) 3 (1 / 20)
        (fun _ _ => []) =
      .error (.valueError (dtLeafBudgetErrMsg 2 3)) := by
  constructor
  · exact (precondition_error_messages "f1" bigColumn [] 0 3 (1 / 20)
      (fun _ _ => [])).2.2.2.1 bigColumn_dedup_large
  · exact (precondition_error_messages "f1" [some 1] [("a", [1]), ("b", [2])] 0 3
      (1 / 20) (fun _ _ => [])).2.2.2.2.2.2.1 (by decide)

/-! ### EqualFrequencyBucketer quantile fallback -/

/-- C8: when the strict quantile cut would fail on duplicate edges,
`EqualFrequencyBucketer.fit` does not fail: it retries dropping the
duplicate edges, records the non-fatal `ApproximationWarning`, and builds
the `BucketMapping` from the fewer approximate quantile boundaries. -/
theorem equal_frequency_duplicate_fallback (feature : String)
    (special : SpecialGroups) (edges : List ℚ) (hdup : ¬ edges.Nodup) :
    (∃ m, qcutRaise edges = .error m) ∧
    (equalFrequencyFit feature special edges).warned = true ∧
    (equalFrequencyFit feature special edges).mapping =
      ⟨feature, "numerical", interiorEdges (qcutDrop edges), true, special, none⟩ ∧
    (qcutDrop edges).length < edges.length := by
  have hq : qcutRaise edges = .error "Bin edges must be unique" := by
    unfold qcutRaise
    rw [if_neg hdup]
  refine ⟨⟨_, hq⟩, ?_, ?_, ?_⟩
  · unfold equalFrequencyFit
    rw [hq]
  · unfold equalFrequencyFit
    rw [hq]
  · have hsub := List.dedup_sublist edges
    rcases lt_or_eq_of_le hsub.length_le with h | h
    · exact h
    · exact absurd (hsub.eq_of_length h ▸ List.nodup_dedup edges) hdup

/-- C8 (witness): a duplicate-heavy edge list `[1, 1, 2, 3]` triggers the
fallback: the fit warns and produces the single interior boundary `2`. -/
theorem equal_frequency_duplicate_fallback_witness :
    (equalFrequencyFit "LIMIT_BAL" [] [1, 1, 2, 3]).warned = true ∧
    (equalFrequencyFit "LIMIT_BAL" [] [1, 1, 2, 3]).mapping.map = [2] := by
  have h := equal_frequency_duplicate_fallback "LIMIT_BAL" [] [1, 1, 2, 3] (by decide)
  refine ⟨h.2.1, ?_⟩
  rw [h.2.2.1]
  decide

/-! ### Remapping the specials between the stages -/

theorem filterMap_pointwise {α β : Type} (f g : α → Option β) :
    ∀ l : List α, (∀ a ∈ l, f a = g a) → l.filterMap f = l.filterMap g
  | [], _ => rfl
  | a :: t, h => by
    simp only [List.filterMap_cons]
    rw [h a (List.mem_cons_self a t),
      filterMap_pointwise f g t (fun b hb => h b (List.mem_cons_of_mem a hb))]

/-- C4: for every feature with declared special groups, `BucketingProcess.fit`
computes the stage-2 specials purely from the prebucketing labels and the
declared specials: a group named `L` becomes a stage-2 special whose value
list is exactly the pre-bucket id(s) labeled `"Special: L"` (at most one such
pre-bucket exists per group), and the remapped specials are assigned to every
bucketer step of the bucketing pipeline before it is fitted. -/
theorem remapped_specials_spec (bucketLabels : List (Int × String))
    (varSpecials : SpecialGroups)
    (huniq : ∀ g ∈ varSpecials,
      (bucketLabels.filter (fun bl => decide (bl.2 = "Special: " ++ g.1))).length ≤ 1) :
    findRemappedSpecials bucketLabels varSpecials =
      remapSpecialsSpec bucketLabels varSpecials ∧
    (∀ g ∈ varSpecials, ∀ ids,
      (g.1, ids) ∈ findRemappedSpecials bucketLabels varSpecials →
        ids = (bucketLabels.filter
          (fun bl => decide (bl.2 = "Special: " ++ g.1))).map Prod.fst) ∧
    ∀ steps s, ∀ st ∈ assignBucketingSpecials steps s,
      st.specials = s ∧ st.name ∈ steps.map PipelineStep.name := by
  refine ⟨?_, ?_, ?_⟩
  · unfold findRemappedSpecials remapSpecialsSpec
    refine filterMap_pointwise _ _ varSpecials (fun g hg => ?_)
    have hlen := huniq g hg
    rcases hm : bucketLabels.filter (fun bl => decide (bl.2 = "Special: " ++ g.1)) with
      _ | ⟨bl, rest⟩
    · rw [hm]
      rfl
    · rw [hm] at hlen
      simp only [List.length_cons] at hlen
      have hrest : rest = [] := List.length_eq_zero.mp (by omega)
      subst hrest
      rw [hm]
      rfl
  · intro g hg ids hmem
    unfold findRemappedSpecials at hmem
    rcases List.mem_filterMap.mp hmem with ⟨g', hg', hout⟩
    rcases hL : (bucketLabels.filter
        (fun bl => decide (bl.2 = "Special: " ++ g'.1))).getLast? with _ | bl
    · rw [hL] at hout
      simp at hout
    · rw [hL] at hout
      simp only [Option.some.injEq, Prod.mk.injEq] at hout
      obtain ⟨hfst, hsnd'⟩ := hout
      have hsnd : ids = [bl.1] := hsnd'.symm
      rw [hfst] at hL
      have hne : bucketLabels.filter (fun bl => decide (bl.2 = "Special: " ++ g.1)) ≠ [] := by
        intro hnil
        rw [hnil] at hL
        cases hL
      have hone : (bucketLabels.filter
          (fun bl => decide (bl.2 = "Special: " ++ g.1))).length = 1 := by
        have := huniq g hg
        have := List.length_pos.mpr hne
        omega
      rcases List.length_eq_one.mp hone with ⟨a, ha⟩
      rw [ha] at hL
      simp only [List.getLast?_singleton, Option.some.injEq] at hL
      rw [hsnd, ha, ← hL]
      rfl
  · intro steps s st hst
    unfold assignBucketingSpecials at hst
    rcases List.mem_map.mp hst with ⟨st0, hst0, rfl⟩
    exact ⟨rfl, List.mem_map.mpr ⟨st0, hst0, rfl⟩⟩

/-- C4 (witness): one special group `=999` whose label was assigned to
pre-bucket `1`; the stage-2 special becomes `=999 → [1]`, and the
assignment loop writes it into the pipeline step. -/
theorem remapped_specials_spec_witness :
    findRemappedSpecials [(0, "(-inf, 1.0)"), (1, "Special: =999")] [("=999", [999])] =
      remapSpecialsSpec [(0, "(-inf, 1.0)"), (1, "Special: =999")] [("=999", [999])] ∧
    findRemappedSpecials [(0, "(-inf, 1.0)"), (1, "Special: =999")] [("=999", [999])] =
      [("=999", [1])] ∧
    assignBucketingSpecials [⟨"optimalbucketer", []⟩]
        [("LIMIT_BAL", [("=999", [1])])] =
      [⟨"optimalbucketer", [("LIMIT_BAL", [("=999", [1])])]⟩] := by
  exact ⟨(remapped_specials_spec [(0, "(-inf, 1.0)"), (1, "Special: =999")]
    [("=999", [999])] (by decide)).1, by decide, by decide⟩

/-- C10: a declared group whose label never occurs as a `"Special: L"`
prebucket label is silently dropped from the remapped specials; a variable
none of whose groups match gets no stage-2 specials entry at all; and with
no specials for the variable, the second stage sends every non-missing
pre-bucket value through the normal partition path (a non-negative bucket
id), raising no error and no warning. -/
theorem unmatched_specials_silently_dropped
    (bucketLabels : List (Int × String)) (varSpecials : SpecialGroups)
    (g : String × List ℚ)
    (hg : ∀ bl ∈ bucketLabels, bl.2 ≠ "Special: " ++ g.1) :
    g.1 ∉ (findRemappedSpecials bucketLabels varSpecials).map Prod.fst ∧
    ((∀ g' ∈ varSpecials, ∀ bl ∈ bucketLabels, bl.2 ≠ "Special: " ++ g'.1) →
      bucketingSpecialsEntry bucketLabels varSpecials = none) ∧
    ∀ m : BucketMapping, m.specials = [] → ∀ v : ℚ,
      0 ≤ transformNumerical m (some v) ∧
      transformNumerical m (some v) =
        (if m.right then ((m.map.filter (fun b => decide (b < v))).length : Int)
         else ((m.map.filter (fun b => decide (b ≤ v))).length : Int)) := by
  refine ⟨?_, ?_, ?_⟩
  · intro hmem
    rcases List.mem_map.mp hmem with ⟨entry, hentry, hefst⟩
    unfold findRemappedSpecials at hentry
    rcases List.mem_filterMap.mp hentry with ⟨g', hg', hout⟩
    rcases hL : (bucketLabels.filter
        (fun bl => decide (bl.2 = "Special: " ++ g'.1))).getLast? with _ | bl
    · rw [hL] at hout
      cases hout
    · rw [hL] at hout
      simp only [Option.some.injEq] at hout
      have hbl := List.mem_of_getLast?_eq_some hL
      rcases List.mem_filter.mp hbl with ⟨hblmem, hbldec⟩
      have hlbl : bl.2 = "Special: " ++ g'.1 := of_decide_eq_true hbldec
      have : g'.1 = g.1 := by
        rw [← hout] at hefst
        exact hefst
      rw [this] at hlbl
      exact hg bl hblmem hlbl
  · intro hall
    have hnil : findRemappedSpecials bucketLabels varSpecials = [] := by
      unfold findRemappedSpecials
      rw [List.filterMap_eq_nil_iff]
      intro g' hg'
      have : bucketLabels.filter (fun bl => decide (bl.2 = "Special: " ++ g'.1)) = [] := by
        rw [List.filter_eq_nil_iff]
        intro bl hbl
        simp only [decide_eq_true_eq]
        exact hall g' hg' bl hbl
      rw [this]
      rfl
    unfold bucketingSpecialsEntry
    rw [hnil]
    rfl
  · intro m hm v
    have htrans : transformNumerical m (some v) =
        (if m.right then ((m.map.filter (fun b => decide (b < v))).length : Int)
         else ((m.map.filter (fun b => decide (b ≤ v))).length : Int)) := by
      unfold transformNumerical specialBucketId
      rw [hm]
      rfl
    refine ⟨?_, htrans⟩
    rw [htrans]
    split_ifs <;> exact Int.natCast_nonneg _

/-- C10 (witness): the group `high_value = [999999]` matches no prebucket
label, so the variable gets no stage-2 specials entry; with empty stage-2
specials the pre-bucket value `999999` falls into normal bucket `1`. -/
theorem unmatched_specials_silently_dropped_witness :
    bucketingSpecialsEntry [(0, "(-inf, inf)")] [("high_value", [999999])] = none ∧
    transformNumerical ⟨"LIMIT_BAL", "numerical", [25], true, [], none⟩
      (some 999999) = 1 := by
  have h := unmatched_specials_silently_dropped [(0, "(-inf, inf)")]
    [("high_value", [999999])] ("high_value", [999999]) (by decide)
  refine ⟨h.2.1 (by decide), ?_⟩
  have h3 := (h.2.2 ⟨"LIMIT_BAL", "numerical", [25], true, [], none⟩ rfl 999999).2
  rw [h3]
  decide

/-! ### The EqualWidth concrete scenario -/

/-- C5: for the column `[10, 20, 30, 40, NaN]` and an `EqualWidthBucketer`
with `n_bins = 2` and no specials, fit computes the histogram edges from
the four non-null values, drops the outer minimum and maximum edges leaving
the single boundary `25`, and transform yields `[0, 0, 1, 1, -1]`. -/
theorem equal_width_concrete_scenario :
    (equalWidthFitMapping "BILL_AMT1" [] [some 10, some 20, some 30, some 40, none] 2).map =
      [25] ∧
    [some 10, some 20, some 30, some 40, none].map
        (transformNumerical (equalWidthFitMapping "BILL_AMT1" []
          [some 10, some 20, some 30, some 40, none] 2)) =
      [0, 0, 1, 1, -1] := by
  have h1 : (filterNaForFit (filterSpecialsForFit
      [some 10, some 20, some 30, some 40, none] [])).reduceOption =
      [10, 20, 30, 40] := by decide
  have hmap : equalWidthFitMapping "BILL_AMT1" []
      [some 10, some 20, some 30, some 40, none] 2 =
      ⟨"BILL_AMT1", "numerical", [25], true, [], none⟩ := by
    simp only [equalWidthFitMapping, h1, BucketMapping.mk.injEq, true_and, and_true]
    norm_num [histogramEdges, List.min?, List.max?, List.range_succ]
  rw [hmap]
  exact ⟨rfl, by decide⟩

/-! ### AgglomerativeClusteringBucketer boundaries -/

theorem foldl_min_mem : ∀ (l : List ℚ) (x : ℚ), l.foldl min x ∈ x :: l
  | [], x => List.mem_cons_self x []
  | a :: t, x => by
    simp only [List.foldl_cons]
    rcases List.mem_cons.mp (foldl_min_mem t (min x a)) with h1 | h1
    · rw [h1]
      rcases min_choice x a with hm | hm
      · rw [hm]
        exact List.mem_cons_self x (a :: t)
      · rw [hm]
        exact List.mem_cons_of_mem x (List.mem_cons_self a t)
    · exact List.mem_cons_of_mem x (List.mem_cons_of_mem a h1)

theorem foldl_min_le : ∀ (l : List ℚ) (x : ℚ), ∀ y ∈ x :: l, l.foldl min x ≤ y
  | [], x, y, hy => by
    have h := List.mem_singleton.mp hy
    rw [h]
    exact le_refl x
  | a :: t, x, y, hy => by
    simp only [List.foldl_cons]
    have hbase : t.foldl min (min x a) ≤ min x a :=
      foldl_min_le t (min x a) (min x a) (List.mem_cons_self _ t)
    rcases List.mem_cons.mp hy with h | hy'
    · rw [h]
      exact le_trans hbase (min_le_left x a)
    · rcases List.mem_cons.mp hy' with h | hy''
      · rw [h]
        exact le_trans hbase (min_le_right x a)
      · exact foldl_min_le t (min x a) y (List.mem_cons_of_mem _ hy'')

theorem foldl_max_mem : ∀ (l : List ℚ) (x : ℚ), l.foldl max x ∈ x :: l
  | [], x => List.mem_cons_self x []
  | a :: t, x => by
    simp only [List.foldl_cons]
    rcases List.mem_cons.mp (foldl_max_mem t (max x a)) with h1 | h1
    · rw [h1]
      rcases max_choice x a with hm | hm
      · rw [hm]
        exact List.mem_cons_self x (a :: t)
      · rw [hm]
        exact List.mem_cons_of_mem x (List.mem_cons_self a t)
    · exact List.mem_cons_of_mem x (List.mem_cons_of_mem a h1)

theorem le_foldl_max : ∀ (l : List ℚ) (x : ℚ), ∀ y ∈ x :: l, y ≤ l.foldl max x
  | [], x, y, hy => by
    have h := List.mem_singleton.mp hy
    rw [h]
    exact le_refl x
  | a :: t, x, y, hy => by
    simp only [List.foldl_cons]
    have hbase : max x a ≤ t.foldl max (max x a) :=
      le_foldl_max t (max x a) (max x a) (List.mem_cons_self _ t)
    rcases List.mem_cons.mp hy with h | hy'
    · rw [h]
      exact le_trans (le_max_left x a) hbase
    · rcases List.mem_cons.mp hy' with h | hy''
      · rw [h]
        exact le_trans (le_max_right x a) hbase
      · exact le_foldl_max t (max x a) y (List.mem_cons_of_mem _ hy'')

theorem clusterMin_le (vs : List ℚ) (ls : List ℕ) (l : ℕ) :
    ∀ y ∈ clusterValues vs ls l, clusterMin vs ls l ≤ y := by
  intro y hy
  unfold clusterMin
  rcases hE : clusterValues vs ls l with _ | ⟨x, rest⟩
  · rw [hE] at hy
    cases hy
  · rw [hE] at hy
    exact foldl_min_le rest x y hy

theorem le_clusterMax (vs : List ℚ) (ls : List ℕ) (l : ℕ) :
    ∀ y ∈ clusterValues vs ls l, y ≤ clusterMax vs ls l := by
  intro y hy
  unfold clusterMax
  rcases hE : clusterValues vs ls l with _ | ⟨x, rest⟩
  · rw [hE] at hy
    cases hy
  · rw [hE] at hy
    exact le_foldl_max rest x y hy

theorem clusterMin_mem (vs : List ℚ) (ls : List ℕ) (l : ℕ)
    (h : clusterValues vs ls l ≠ []) :
    clusterMin vs ls l ∈ clusterValues vs ls l := by
  unfold clusterMin
  rcases hE : clusterValues vs ls l with _ | ⟨x, rest⟩
  · exact absurd hE h
  · exact foldl_min_mem rest x

theorem clusterMin_le_clusterMax (vs : List ℚ) (ls : List ℕ) (l : ℕ)
    (h : clusterValues vs ls l ≠ []) :
    clusterMin vs ls l ≤ clusterMax vs ls l := by
  have hm := clusterMin_mem vs ls l h
  exact le_clusterMax vs ls l _ hm

theorem clusterValues_ne_nil : ∀ (vs : List ℚ) (ls : List ℕ),
    vs.length = ls.length → ∀ l ∈ ls, clusterValues vs ls l ≠ []
  | [], [], _, l, hl => absurd hl (List.not_mem_nil l)
  | [], a :: ls, hlen, l, hl => by simp at hlen
  | v :: vs, [], hlen, l, hl => absurd hl (List.not_mem_nil l)
  | v :: vs, a :: ls, hlen, l, hl => by
    unfold clusterValues
    simp only [List.zip_cons_cons, List.filter_cons]
    by_cases ha : a = l
    · simp [ha]
    · rcases List.mem_cons.mp hl with rfl | hl'
      · exact absurd rfl ha
      · have hd : (decide ((v, a).2 = l)) = false := by
          simp [ha]
        simp only [hd, Bool.false_eq_true, if_false]
        have hlen' : vs.length = ls.length := by
          simpa using hlen
        have := clusterValues_ne_nil vs ls hlen' l hl'
        unfold clusterValues at this
        exact this

theorem clusterValues_map (vs : List ℚ) (ls : List ℕ) (σ : ℕ → ℕ)
    (hσ : Function.Injective σ) (l : ℕ) :
    clusterValues vs (ls.map σ) (σ l) = clusterValues vs ls l := by
  unfold clusterValues
  rw [List.zip_map_right, List.filter_map, List.map_map]
  rw [List.filter_congr (fun p _ => show ((fun q : ℚ × ℕ => decide (q.2 = σ l)) ∘
      Prod.map id σ) p = (fun q : ℚ × ℕ => decide (q.2 = l)) p by
    simp only [Function.comp_apply, Prod.map_snd, id_eq]
    exact decide_eq_decide.mpr ⟨fun h => hσ h, fun h => congrArg σ h⟩)]
  rw [show (Prod.fst ∘ Prod.map id σ : ℚ × ℕ → ℚ) = Prod.fst from
    funext (fun p => by cases p; rfl)]

theorem clusterMin_map (vs : List ℚ) (ls : List ℕ) (σ : ℕ → ℕ)
    (hσ : Function.Injective σ) (l : ℕ) :
    clusterMin vs (ls.map σ) (σ l) = clusterMin vs ls l := by
  unfold clusterMin
  rw [clusterValues_map vs ls σ hσ l]

theorem clusterMax_map (vs : List ℚ) (ls : List ℕ) (σ : ℕ → ℕ)
    (hσ : Function.Injective σ) (l : ℕ) :
    clusterMax vs (ls.map σ) (σ l) = clusterMax vs ls l := by
  unfold clusterMax
  rw [clusterValues_map vs ls σ hσ l]

theorem dedup_map_injective (σ : ℕ → ℕ) (hσ : Function.Injective σ) :
    ∀ ls : List ℕ, (ls.map σ).dedup = ls.dedup.map σ
  | [] => rfl
  | a :: t => by
    by_cases h : a ∈ t.dedup
    · have h' : σ a ∈ (t.map σ).dedup := by
        rw [dedup_map_injective σ hσ t]
        exact List.mem_map.mpr ⟨a, h, rfl⟩
      rw [List.map_cons, List.dedup_cons_of_mem' h', List.dedup_cons_of_mem' h,
        dedup_map_injective σ hσ t]
    · have h' : σ a ∉ (t.map σ).dedup := by
        rw [dedup_map_injective σ hσ t]
        intro hc
        rcases List.mem_map.mp hc with ⟨b, hb, hba⟩
        rw [hσ hba] at hb
        exact h hb
      rw [List.map_cons, List.dedup_cons_of_not_mem' h', List.dedup_cons_of_not_mem' h,
        List.map_cons, dedup_map_injective σ hσ t]

theorem getD_map_get (f : ℕ → ℚ) (L : List ℕ) (i : ℕ) (h : i < L.length) :
    (L.map f).getD i 0 = f (L.getD i 0) := by
  rw [List.getD_eq_getElem _ _ (by simpa using h), List.getD_eq_getElem _ _ h,
    List.getElem_map]

theorem getD_range_map (g : ℕ → ℚ) (n i : ℕ) (h : i < n) :
    ((List.range n).map g).getD i 0 = g i := by
  rw [List.getD_eq_getElem _ _ (by simpa using h), List.getElem_map, List.getElem_range]

theorem sorted_map_of_adjacent (L : List ℕ) (f : ℕ → ℚ)
    (h : ∀ i, i + 1 < L.length → f (L.getD i 0) ≤ f (L.getD (i + 1) 0)) :
    List.Sorted (fun a b : ℚ => a ≤ b) (L.map f) := by
  have hchain : List.Chain' (fun a b : ℚ => a ≤ b) (L.map f) := by
    rw [List.chain'_map, List.chain'_iff_get]
    intro i hi
    have hi2 : i + 1 < L.length := by omega
    have e1 : L.get ⟨i, by omega⟩ = L.getD i 0 := by
      rw [List.getD_eq_getElem _ _ (show i < L.length by omega)]
      simp
    have e2 : L.get ⟨i + 1, by omega⟩ = L.getD (i + 1) 0 := by
      rw [List.getD_eq_getElem _ _ hi2]
      simp
    rw [e1, e2]
    exact h i hi2
  exact List.chain'_iff_pairwise.mp hchain

/-- C9: for every feature fitted by `AgglomerativeClusteringBucketer`, the
boundary sequence has (number of clusters) − 1 entries; it is invariant
under any injective relabeling of the raw (unordered) cluster labels; and
when the clusters are separated (adjacent in sorted value order, listed by
`L`), the boundary between two adjacent clusters is the arithmetic mean of
the lower cluster's maximum and the upper cluster's minimum. -/
theorem agglomerative_boundaries_spec (vs : List ℚ) (ls : List ℕ)
    (hlen : vs.length = ls.length) (L : List ℕ) (hperm : L.Perm ls.dedup)
    (hsep : ∀ i, i + 1 < L.length →
      clusterMax vs ls (L.getD i 0) < clusterMin vs ls (L.getD (i + 1) 0)) :
    (agglomBoundaries vs ls).length = ls.dedup.length - 1 ∧
    (∀ σ : ℕ → ℕ, Function.Injective σ →
      agglomBoundaries vs (ls.map σ) = agglomBoundaries vs ls) ∧
    ∀ i, i + 1 < L.length →
      (agglomBoundaries vs ls).getD i 0 =
        (clusterMax vs ls (L.getD i 0) + clusterMin vs ls (L.getD (i + 1) 0)) / 2 := by
  have hmemD : ∀ j, j < L.length → L.getD j 0 ∈ L := by
    intro j hj
    rw [List.getD_eq_getElem _ _ hj]
    exact L.getElem_mem hj
  have hne : ∀ l ∈ L, clusterValues vs ls l ≠ [] := fun l hl =>
    clusterValues_ne_nil vs ls hlen l (List.mem_dedup.mp (hperm.subset hl))
  have hminsorted : List.Sorted (fun a b : ℚ => a ≤ b) (L.map (clusterMin vs ls)) := by
    apply sorted_map_of_adjacent
    intro j hj
    exact le_trans (clusterMin_le_clusterMax vs ls _ (hne _ (hmemD j (by omega))))
      (le_of_lt (hsep j hj))
  have hmaxsorted : List.Sorted (fun a b : ℚ => a ≤ b) (L.map (clusterMax vs ls)) := by
    apply sorted_map_of_adjacent
    intro j hj
    exact le_trans (le_of_lt (hsep j hj))
      (le_clusterMax vs ls _ _ (clusterMin_mem vs ls _ (hne _ (hmemD (j + 1) hj))))
  have hmins : sortQ (ls.dedup.map (clusterMin vs ls)) = L.map (clusterMin vs ls) :=
    List.eq_of_perm_of_sorted
      ((List.perm_insertionSort _ _).trans (hperm.map (clusterMin vs ls)).symm)
      (List.sorted_insertionSort _ _) hminsorted
  have hmaxs : sortQ (ls.dedup.map (clusterMax vs ls)) = L.map (clusterMax vs ls) :=
    List.eq_of_perm_of_sorted
      ((List.perm_insertionSort _ _).trans (hperm.map (clusterMax vs ls)).symm)
      (List.sorted_insertionSort _ _) hmaxsorted
  refine ⟨?_, ?_, ?_⟩
  · simp only [agglomBoundaries]
    rw [List.length_map, List.length_range]
    unfold sortQ
    rw [List.length_insertionSort, List.length_map]
  · intro σ hσ
    simp only [agglomBoundaries]
    rw [dedup_map_injective σ hσ ls, List.map_map, List.map_map,
      show (clusterMin vs (ls.map σ)) ∘ σ = clusterMin vs ls from
        funext (fun l => clusterMin_map vs ls σ hσ l),
      show (clusterMax vs (ls.map σ)) ∘ σ = clusterMax vs ls from
        funext (fun l => clusterMax_map vs ls σ hσ l)]
  · intro i hi
    have hLlen : L.length = ls.dedup.length := hperm.length_eq
    simp only [agglomBoundaries]
    rw [hmins, hmaxs, List.length_map]
    rw [getD_range_map _ _ i (by omega)]
    rw [getD_map_get (clusterMin vs ls) L (i + 1) hi,
      getD_map_get (clusterMax vs ls) L i (by omega)]
    rw [add_comm]

/-- C9 (witness): six points in three separated clusters with unordered
labels `[1, 1, 0, 0, 2, 2]`: two boundaries, invariance under the injective
relabeling `n ↦ n + 5`, and the first boundary is the mean of cluster
`1`'s maximum and cluster `0`'s minimum. -/
theorem agglomerative_boundaries_spec_witness :
    (agglomBoundaries [1, 2, 10, 11, 20, 22] [1, 1, 0, 0, 2, 2]).length = 2 ∧
    agglomBoundaries [1, 2, 10, 11, 20, 22]
        ([1, 1, 0, 0, 2, 2].map (fun n => n + 5)) =
      agglomBoundaries [1, 2, 10, 11, 20, 22] [1, 1, 0, 0, 2, 2] ∧
    (agglomBoundaries [1, 2, 10, 11, 20, 22] [1, 1, 0, 0, 2, 2]).getD 0 0 =
      (clusterMax [1, 2, 10, 11, 20, 22] [1, 1, 0, 0, 2, 2] 1 +
        clusterMin [1, 2, 10, 11, 20, 22] [1, 1, 0, 0, 2, 2] 0) / 2 := by
  have hperm : ([1, 0, 2] : List ℕ).Perm ([1, 1, 0, 0, 2, 2] : List ℕ).dedup := by
    rw [show ([1, 1, 0, 0, 2, 2] : List ℕ).dedup = [1, 0, 2] from by decide]
  have h := agglomerative_boundaries_spec [1, 2, 10, 11, 20, 22] [1, 1, 0, 0, 2, 2]
    (by decide) [1, 0, 2] hperm ?hsep
  case hsep =>
    intro i hi
    have hlen3 : ([1, 0, 2] : List ℕ).length = 3 := rfl
    have hi2 : i < 2 := by omega
    interval_cases i
    · decide
    · decide
  refine ⟨?_, h.2.1 (fun n => n + 5) (fun a b hab => Nat.add_right_cancel hab), ?_⟩
  · rw [h.1]
    decide
  · have h3 := h.2.2 0 (by decide)
    have e1 : ([1, 0, 2] : List ℕ).getD 0 0 = 1 := rfl
    have e2 : ([1, 0, 2] : List ℕ).getD 1 0 = 0 := rfl
    rw [e1, e2] at h3
    exact h3

end Skorecard
